import Mathlib

/-!
Shallow embedding of the knurl HTTP engine core
(`src-tauri/src/http_client` and the `send_http_request` command of
`src-tauri/src/lib.rs`), together with theorems checking the
specification against the code.

Strings are modelled either as Lean `String` (method and header names,
compared for equality exactly as the Rust code compares them) or as
`List Char` where per-character work (ASCII lowercasing, trimming,
splitting) must mirror the Rust byte-level routines.  Machine integers
are modelled as `Nat`/`Int` with explicit range conditions where the
Rust code checks them.
-/

namespace Knurl

/-! ## Redirect policy (HyperEngine::execute, hyper_engine.rs) -/

/-- Next-method choice of the redirect loop in `HyperEngine::execute`
(the `match status.as_u16()` at hyper_engine.rs:962-973): 303 always
becomes GET; 301/302 keep the current method when it is GET or HEAD and
otherwise downgrade to GET; 307/308 and every other status keep the
current method. -/
def nextMethod (status : Nat) (currentMethod : String) : String :=
  if status = 303 then "GET"
  else if status = 301 ∨ status = 302 then
    if currentMethod = "GET" ∨ currentMethod = "HEAD" then currentMethod else "GET"
  else currentMethod

/-- Body carried to the next hop (hyper_engine.rs:974-977): cleared to
empty when the chosen next method is GET or HEAD, kept otherwise. -/
def nextBody (nm : String) (currentBody : List Nat) : List Nat :=
  if nm = "GET" ∨ nm = "HEAD" then [] else currentBody

/-- Origin-relevant components of a `hyper::Uri` as the redirect loop
reads them: `scheme_str()`, `host()` and `port_u16()` (each may be
absent). -/
structure UriOrigin where
  scheme : Option String
  host : Option String
  port : Option Nat
deriving DecidableEq, Repr

/-- The `origin_changed` test of the redirect loop
(hyper_engine.rs:979-981): scheme, host, or port differ. -/
def originChanged (cur nxt : UriOrigin) : Bool :=
  cur.scheme != nxt.scheme || cur.host != nxt.host || cur.port != nxt.port

/-- Header map of the engine, as an ordered list of (name, value) pairs
with names already lowercased (hyper `HeaderName`s are lowercase). -/
abbrev Headers := List (String × String)

/-- Removal of the sensitive headers on a cross-origin redirect
(hyper_engine.rs:983-989): `headers.remove` for authorization,
proxy-authorization and cookie. -/
def stripSensitive (hs : Headers) : Headers :=
  hs.filter fun h =>
    !(h.1 == "authorization" || h.1 == "proxy-authorization" || h.1 == "cookie")

/-- Mutable state of the redirect loop: current URI origin, method,
body and header set. -/
structure RedirectState where
  uri : UriOrigin
  method : String
  body : List Nat
  headers : Headers
deriving DecidableEq, Repr

/-- One taken redirect hop of the loop in `HyperEngine::execute`
(hyper_engine.rs:961-1009): choose the next method, clear the body for
GET/HEAD, strip sensitive headers when the origin changed, and move to
the next URI. -/
def redirectHop (st : RedirectState) (status : Nat) (nextUri : UriOrigin) :
    RedirectState :=
  let nm := nextMethod status st.method
  let nb := nextBody nm st.body
  let hs := if originChanged st.uri nextUri then stripSensitive st.headers else st.headers
  ⟨nextUri, nm, nb, hs⟩

/-- Folding a sequence of taken redirect hops. -/
def runRedirects (st : RedirectState) (hops : List (Nat × UriOrigin)) :
    RedirectState :=
  hops.foldl (fun s h => redirectHop s h.1 h.2) st

/-- No sensitive header is present in a header set. -/
def NoSensitive (hs : Headers) : Prop :=
  ∀ p ∈ hs, p.1 ≠ "authorization" ∧ p.1 ≠ "proxy-authorization" ∧ p.1 ≠ "cookie"

theorem stripSensitive_noSensitive (hs : Headers) :
    NoSensitive (stripSensitive hs) := by
  intro p hp
  have hc := (List.mem_filter.mp hp).2
  simp only [Bool.not_eq_true', Bool.or_eq_false_iff, beq_eq_false_iff_ne, ne_eq] at hc
  exact ⟨hc.1.1, hc.1.2, hc.2⟩

theorem noSensitive_filter (hs : Headers) (h : NoSensitive hs)
    (p : (String × String) → Bool) : NoSensitive (hs.filter p) := by
  intro q hq
  exact h q (List.mem_filter.mp hq).1

theorem redirectHop_noSensitive (st : RedirectState) (status : Nat)
    (nxt : UriOrigin) (h : NoSensitive st.headers) :
    NoSensitive (redirectHop st status nxt).headers := by
  simp only [redirectHop]
  split
  · exact noSensitive_filter _ h _
  · exact h

theorem runRedirects_noSensitive (hops : List (Nat × UriOrigin))
    (st : RedirectState) (h : NoSensitive st.headers) :
    NoSensitive (runRedirects st hops).headers := by
  induction hops generalizing st with
  | nil => exact h
  | cons hop rest ih =>
      exact ih _ (redirectHop_noSensitive st hop.1 hop.2 h)

/-- Claim C1: for every taken redirect hop, a 303 response makes the
next method GET; 301/302 keep the current method when it is GET or HEAD
and otherwise downgrade it to GET; 307/308 keep the current method (and
the body, whenever that method is not GET/HEAD); and whenever the chosen
next method is GET or HEAD the body carried to the next hop is empty. -/
theorem redirect_method_policy (status : Nat) (m : String) (body : List Nat) :
    (status = 303 → nextMethod status m = "GET") ∧
    ((status = 301 ∨ status = 302) →
      ((m = "GET" ∨ m = "HEAD") → nextMethod status m = m) ∧
      (¬(m = "GET" ∨ m = "HEAD") → nextMethod status m = "GET")) ∧
    ((status = 307 ∨ status = 308) →
      nextMethod status m = m ∧
      (¬(m = "GET" ∨ m = "HEAD") → nextBody (nextMethod status m) body = body)) ∧
    ((nextMethod status m = "GET" ∨ nextMethod status m = "HEAD") →
      nextBody (nextMethod status m) body = []) := by
  refine ⟨?_, ?_, ?_, ?_⟩
  · intro h
    simp [nextMethod, h]
  · intro h
    constructor
    · intro hm
      rcases h with h | h <;> simp [nextMethod, h, hm]
    · intro hm
      rcases h with h | h <;> simp [nextMethod, h, hm]
  · intro h
    have hm : nextMethod status m = m := by
      rcases h with h | h <;> simp [nextMethod, h]
    refine ⟨hm, ?_⟩
    intro hnm
    rw [hm]
    simp [nextBody, hnm]
  · intro h
    simp [nextBody, h]

/-- Witness for C1 at concrete inputs. -/
theorem redirect_method_policy_witness :
    nextMethod 303 "POST" = "GET" ∧ nextMethod 301 "HEAD" = "HEAD" ∧
    nextMethod 302 "POST" = "GET" ∧ nextMethod 307 "POST" = "POST" ∧
    nextBody (nextMethod 307 "POST") [7] = [7] ∧
    nextBody (nextMethod 303 "PUT") [7] = [] := by
  have h303 := (redirect_method_policy 303 "POST" [] ).1 rfl
  have h301 := ((redirect_method_policy 301 "HEAD" [] ).2.1 (Or.inl rfl)).1 (Or.inr rfl)
  have h302 := ((redirect_method_policy 302 "POST" [] ).2.1 (Or.inr rfl)).2 (by decide)
  have h307 := (redirect_method_policy 307 "POST" [7] ).2.2.1 (Or.inl rfl)
  have hbody := h307.2 (by decide)
  have hclear := (redirect_method_policy 303 "PUT" [7] ).2.2.2
    (Or.inl ((redirect_method_policy 303 "PUT" [7] ).1 rfl))
  exact ⟨h303, h301, h302, h307.1, hbody, hclear⟩

/-- Claim C2: a cross-origin hop (scheme, host, or port differ) removes
Authorization, Proxy-Authorization and Cookie from the header set, and
they stay absent across all later hops; a same-origin hop carries the
header set to the next hop unchanged. -/
theorem redirect_strips_sensitive_cross_origin (st : RedirectState)
    (status : Nat) (nxt : UriOrigin) (hops : List (Nat × UriOrigin)) :
    (originChanged st.uri nxt = true →
      NoSensitive (redirectHop st status nxt).headers ∧
      NoSensitive (runRedirects (redirectHop st status nxt) hops).headers) ∧
    (originChanged st.uri nxt = false →
      (redirectHop st status nxt).headers = st.headers) := by
  constructor
  · intro hchg
    have h1 : NoSensitive (redirectHop st status nxt).headers := by
      simp only [redirectHop, hchg, if_pos]
      exact stripSensitive_noSensitive st.headers
    exact ⟨h1, runRedirects_noSensitive hops _ h1⟩
  · intro hsame
    simp [redirectHop, hsame]

/-- Witness for C2 at concrete inputs. -/
theorem redirect_strips_sensitive_cross_origin_witness :
    NoSensitive (redirectHop
      ⟨⟨some "https", some "a.com", none⟩, "GET", [],
        [("authorization", "tok"), ("accept", "1")]⟩
      301 ⟨some "https", some "b.com", none⟩).headers ∧
    (redirectHop
      ⟨⟨some "https", some "a.com", none⟩, "GET", [],
        [("authorization", "tok"), ("accept", "1")]⟩
      301 ⟨some "https", some "a.com", none⟩).headers =
      [("authorization", "tok"), ("accept", "1")] := by
  constructor
  · exact ((redirect_strips_sensitive_cross_origin
      ⟨⟨some "https", some "a.com", none⟩, "GET", [],
        [("authorization", "tok"), ("accept", "1")]⟩
      301 ⟨some "https", some "b.com", none⟩ []).1 (by decide)).1
  · exact (redirect_strips_sensitive_cross_origin
      ⟨⟨some "https", some "a.com", none⟩, "GET", [],
        [("authorization", "tok"), ("accept", "1")]⟩
      301 ⟨some "https", some "a.com", none⟩ []).2 (by decide)

/-! ## Response body capture (HyperEngine::handle_response) -/

/-- Default spooling threshold (hyper_engine.rs:1083):
`preview_max_bytes.unwrap_or(20 * 1024 * 1024)`. -/
def defaultPreviewMaxBytes : Nat := 20 * 1024 * 1024

/-- Threshold selection from the request option. -/
def streamToFileThreshold (previewMaxBytes : Option Nat) : Nat :=
  previewMaxBytes.getD defaultPreviewMaxBytes

/-- Mutable state of the streaming loop in `HyperEngine::handle_response`
(hyper_engine.rs:1084-1088): accumulated size, the `write_to_file` flag,
the optional temp file (modelled by its byte content) and the in-memory
buffer. -/
structure CapState where
  size : Nat
  writeToFile : Bool
  temp : Option (List Nat)
  bodyBuf : List Nat
deriving DecidableEq, Repr

/-- Initial capture state: `write_to_file = content_length > threshold`,
no temp file, empty buffer (hyper_engine.rs:1084-1088). -/
def capInit (contentLength threshold : Nat) : CapState :=
  ⟨0, decide (contentLength > threshold), none, []⟩

/-- One iteration of the `while let Some(chunk)` loop
(hyper_engine.rs:1089-1135): the size grows by the chunk length; when
`write_to_file` is set or the new size exceeds the threshold, a temp
file is created on first use (flushing the buffer into it) and the
chunk appended to it; otherwise the chunk extends the in-memory
buffer. -/
def capStep (threshold : Nat) (st : CapState) (chunk : List Nat) : CapState :=
  let size := st.size + chunk.length
  if st.writeToFile || decide (size > threshold) then
    match st.temp with
    | none => ⟨size, true, some (st.bodyBuf ++ chunk), []⟩
    | some t => ⟨size, st.writeToFile, some (t ++ chunk), st.bodyBuf⟩
  else
    ⟨size, st.writeToFile, st.temp, st.bodyBuf ++ chunk⟩

/-- Result triple `(body_vec, file_path, reported_size)` of
`handle_response` (hyper_engine.rs:1201-1208).  The concrete temp-file
path is chosen by the operating system; the model stands in a fixed
non-empty placeholder for it. -/
structure BodyOutcome where
  body : List Nat
  filePath : Option String
  size : Nat
deriving DecidableEq, Repr

/-- Whole capture of a response body given the declared content length,
the threshold and the ordered chunk sequence (hyper_engine.rs:1076-1135
and 1201-1208). -/
def captureBody (contentLength threshold : Nat) (chunks : List (List Nat)) :
    BodyOutcome :=
  let st := chunks.foldl (capStep threshold) (capInit contentLength threshold)
  match st.temp with
  | some _ => ⟨[], some "knurl-tmpfile", st.size⟩
  | none => ⟨st.bodyBuf, none, st.size⟩

/-- Total byte count of a chunk sequence. -/
def totalLen (chunks : List (List Nat)) : Nat :=
  (chunks.map List.length).sum

theorem capStep_size (threshold : Nat) (st : CapState) (chunk : List Nat) :
    (capStep threshold st chunk).size = st.size + chunk.length := by
  simp only [capStep]
  split
  · split <;> rfl
  · rfl

theorem capFold_size (threshold : Nat) (chunks : List (List Nat)) (st : CapState) :
    (chunks.foldl (capStep threshold) st).size = st.size + totalLen chunks := by
  induction chunks generalizing st with
  | nil => simp [totalLen]
  | cons c rest ih =>
      simp only [List.foldl_cons, ih, capStep_size, totalLen, List.map_cons,
        List.sum_cons]
      omega

theorem capStep_temp_none (threshold : Nat) (st : CapState) (chunk : List Nat)
    (h : (capStep threshold st chunk).temp = none) : st.temp = none := by
  simp only [capStep] at h
  split at h
  · split at h <;> simp_all
  · exact h

theorem capStep_temp_none_size (threshold : Nat) (st : CapState) (chunk : List Nat)
    (h : (capStep threshold st chunk).temp = none) :
    (capStep threshold st chunk).size ≤ threshold := by
  rw [capStep_size]
  simp only [capStep] at h
  split at h
  · split at h <;> simp_all
  · next hc =>
      simp only [Bool.or_eq_true, decide_eq_true_eq, not_or, Nat.not_lt] at hc
      exact hc.2

theorem capFold_temp_none_size (threshold : Nat) (chunks : List (List Nat))
    (st : CapState) (hst : st.temp = none → st.size ≤ threshold)
    (h : (chunks.foldl (capStep threshold) st).temp = none) :
    (chunks.foldl (capStep threshold) st).size ≤ threshold := by
  induction chunks generalizing st with
  | nil => exact hst h
  | cons c rest ih =>
      simp only [List.foldl_cons] at h ⊢
      exact ih _ (fun hn => capStep_temp_none_size threshold st c hn) h

theorem capFold_no_spill (threshold : Nat) (chunks : List (List Nat))
    (st : CapState) (hw : st.writeToFile = false) (ht : st.temp = none)
    (hsz : st.size + totalLen chunks ≤ threshold) :
    (chunks.foldl (capStep threshold) st) =
      ⟨st.size + totalLen chunks, false, none, st.bodyBuf ++ chunks.flatten⟩ := by
  induction chunks generalizing st with
  | nil =>
      simp only [List.foldl_nil, totalLen, List.map_nil, List.sum_nil,
        List.flatten_nil, List.append_nil, Nat.add_zero]
      cases st
      simp_all
  | cons c rest ih =>
      have hc : (st.writeToFile || decide (st.size + c.length > threshold)) = false := by
        have : ¬ (st.size + c.length > threshold) := by
          simp only [totalLen, List.map_cons, List.sum_cons] at hsz
          omega
        simp [hw, this]
      simp only [List.foldl_cons, capStep, hc, Bool.false_eq_true, if_neg,
        Bool.not_eq_true]
      rw [if_neg (by simp_all)]
      have hsz2 : st.size + c.length + totalLen rest ≤ threshold := by
        simp only [totalLen, List.map_cons, List.sum_cons] at hsz ⊢
        omega
      rw [ih ⟨st.size + c.length, st.writeToFile, st.temp, st.bodyBuf ++ c⟩ hw ht hsz2]
      simp only [totalLen, List.map_cons, List.sum_cons, List.flatten_cons,
        List.append_assoc, Nat.add_assoc]

theorem capStep_writeToFile_temp (threshold : Nat) (st : CapState)
    (chunk : List Nat) (hw : st.writeToFile = true) :
    ∃ t, (capStep threshold st chunk).temp = some t := by
  simp only [capStep, hw, Bool.true_or, if_pos]
  cases h : st.temp <;> simp

theorem capStep_temp_stays (threshold : Nat) (st : CapState) (chunk : List Nat)
    (t : List Nat) (h : st.temp = some t) :
    ∃ u, (capStep threshold st chunk).temp = some u := by
  simp only [capStep]
  split
  · rw [h]
    simp
  · exact ⟨t, h⟩

theorem capFold_temp_stays (threshold : Nat) (chunks : List (List Nat))
    (st : CapState) (h : ∃ t, st.temp = some t) :
    ∃ u, (chunks.foldl (capStep threshold) st).temp = some u := by
  induction chunks generalizing st with
  | nil => exact h
  | cons c rest ih =>
      obtain ⟨t, ht⟩ := h
      exact ih _ (capStep_temp_stays threshold st c t ht)

/-- Claim C3 (amended): the reported size always equals the sum of the
received chunk lengths; when both the declared content length and the
total received size are at or under the threshold, the descriptor has no
file path and its inline bytes are exactly the received bytes (so they
are non-empty exactly when at least one byte arrived); when the total
exceeds the threshold, or the declared content length exceeds the
threshold and at least one chunk arrives, the descriptor carries a file
path and empty inline bytes. -/
theorem captureBody_spooling (cl th : Nat) (chunks : List (List Nat)) :
    (captureBody cl th chunks).size = totalLen chunks ∧
    (cl ≤ th → totalLen chunks ≤ th →
      (captureBody cl th chunks).filePath = none ∧
      (captureBody cl th chunks).body = chunks.flatten) ∧
    (totalLen chunks > th →
      (∃ p, (captureBody cl th chunks).filePath = some p) ∧
      (captureBody cl th chunks).body = []) ∧
    (cl > th → chunks ≠ [] →
      (∃ p, (captureBody cl th chunks).filePath = some p) ∧
      (captureBody cl th chunks).body = []) := by
  have hsize : (chunks.foldl (capStep th) (capInit cl th)).size = totalLen chunks := by
    rw [capFold_size]
    simp [capInit]
  refine ⟨?_, ?_, ?_, ?_⟩
  · simp only [captureBody]
    split <;> simpa using hsize
  · intro hcl htot
    have hw : (capInit cl th).writeToFile = false := by
      simp only [capInit, decide_eq_false_iff_not]
      omega
    have h := capFold_no_spill th chunks (capInit cl th) hw rfl
      (by simpa [capInit] using htot)
    simp only [captureBody, h]
    simp [capInit]
  · intro htot
    simp only [captureBody]
    split
    · exact ⟨⟨"knurl-tmpfile", rfl⟩, rfl⟩
    · next heq =>
        exfalso
        have hle := capFold_temp_none_size th chunks (capInit cl th)
          (fun _ => by simp [capInit]) heq
        rw [hsize] at hle
        omega
  · intro hcl hne
    cases chunks with
    | nil => exact absurd rfl hne
    | cons c rest =>
        have hw : (capInit cl th).writeToFile = true := by
          simp only [capInit, decide_eq_true_eq]
          omega
        obtain ⟨t, ht⟩ := capStep_writeToFile_temp th (capInit cl th) c hw
        obtain ⟨u, hu⟩ :=
          capFold_temp_stays th rest (capStep th (capInit cl th) c) ⟨t, ht⟩
        simp only [captureBody, List.foldl_cons]
        rw [hu]
        exact ⟨⟨"knurl-tmpfile", rfl⟩, rfl⟩

/-- Witness for C3 at concrete inputs: a two-byte body under a threshold
of three stays inline; four bytes spool; a declared content length of
nine spools from the first chunk. -/
theorem captureBody_spooling_witness :
    (captureBody 2 3 [[1, 2]]).size = 2 ∧
    (captureBody 2 3 [[1, 2]]).filePath = none ∧
    (captureBody 2 3 [[1, 2]]).body = [1, 2] ∧
    (∃ p, (captureBody 0 3 [[1, 2], [3, 4]]).filePath = some p) ∧
    (captureBody 0 3 [[1, 2], [3, 4]]).body = [] ∧
    (∃ p, (captureBody 9 3 [[1]]).filePath = some p) ∧
    (captureBody 9 3 [[1]]).body = [] := by
  obtain ⟨hs1, hin1, -, -⟩ := captureBody_spooling 2 3 [[1, 2]]
  obtain ⟨-, -, hov2, -⟩ := captureBody_spooling 0 3 [[1, 2], [3, 4]]
  obtain ⟨-, -, -, hcl3⟩ := captureBody_spooling 9 3 [[1]]
  obtain ⟨hf1, hb1⟩ := hin1 (by decide) (by decide)
  obtain ⟨hf2, hb2⟩ := hov2 (by decide)
  obtain ⟨hf3, hb3⟩ := hcl3 (by decide) (by decide)
  exact ⟨hs1.trans (by decide), hf1, hb1.trans (by decide), hf2, hb2, hf3, hb3⟩

/-- Counterexample to claim C3 as stated: the empty chunk sequence has
total size at or under the default threshold, yet the descriptor's
inline body bytes are EMPTY where the claim promises them non-empty. -/
theorem captureBody_inline_nonempty_counterexample :
    totalLen [] ≤ streamToFileThreshold none ∧
    (captureBody 0 (streamToFileThreshold none) []).filePath = none ∧
    (captureBody 0 (streamToFileThreshold none) []).body = [] := by
  refine ⟨by decide, rfl, rfl⟩

/-- Claim C10: a body stream delivering zero total bytes, with declared
content length not exceeding the threshold, yields empty inline bytes,
an absent file path and reported size 0. -/
theorem captureBody_empty_stream (cl th : Nat) (chunks : List (List Nat))
    (hcl : cl ≤ th) (hz : totalLen chunks = 0) :
    captureBody cl th chunks = ⟨[], none, 0⟩ := by
  have hflat : chunks.flatten = [] := by
    have hlen : chunks.flatten.length = 0 := by
      rw [List.length_flatten]
      simpa [totalLen] using hz
    exact List.length_eq_zero.mp hlen
  have hw : (capInit cl th).writeToFile = false := by
    simp only [capInit, decide_eq_false_iff_not]
    omega
  have h := capFold_no_spill th chunks (capInit cl th) hw rfl
    (by simp [capInit, hz])
  simp only [captureBody, h, hflat, hz]
  simp [capInit]

/-- Witness for C10 at concrete inputs. -/
theorem captureBody_empty_stream_witness :
    (0 : Nat) ≤ 5 ∧ totalLen [[], []] = 0 ∧
    captureBody 0 5 [[], []] = ⟨[], none, 0⟩ :=
  ⟨by decide, by decide, captureBody_empty_stream 0 5 [[], []] (by decide) (by decide)⟩

/-! ## Transport attempts, HTTP/2 fallback and timeouts
(HyperEngine::execute, hyper_engine.rs:696-933) -/

/-- Error kinds of the application (errors/error.rs, `enum ErrorKind`). -/
inductive ErrorKind
  | FileNotFound
  | InvalidPath
  | PermissionDenied
  | FileAlreadyExists
  | IoError
  | InvalidKeyLength
  | DecryptionFailed
  | EncryptionFailed
  | KeyringPlatformFailure
  | KeyringBadEncoding
  | KeyringAttributeInvalid
  | Base64Error
  | JsonError
  | TauriError
  | Timeout
  | ConnectionRefused
  | HttpError
  | UserCancelled
  | BadRequest
  | NotImplemented
deriving DecidableEq, Repr

/-- Protocol preference (request.rs, `enum HttpVersionPref`). -/
inductive HttpVersionPref
  | auto
  | http1
  | http2
deriving DecidableEq, Repr

/-- ASCII lowercasing of one character, as Rust `to_ascii_lowercase`
does byte-wise on `A..Z`. -/
def asciiLower (c : Char) : Char :=
  if 'A' ≤ c ∧ c ≤ 'Z' then Char.ofNat (c.toNat + 32) else c

/-- ASCII lowercasing of a character sequence. -/
def lowerStr (s : List Char) : List Char := s.map asciiLower

/-- Substring test with Rust `str::contains` semantics. -/
def containsSub (hay needle : List Char) : Bool :=
  hay.tails.any fun t => needle.isPrefixOf t

/-- The lowercased combined error text
`format!("{disp} | {dbg}").to_lowercase()` (hyper_engine.rs:702-704). -/
def combinedErrText (disp dbg : List Char) : List Char :=
  lowerStr (disp ++ (" | ".toList) ++ dbg)

/-- Whether the protocol preference permits HTTP/2
(hyper_engine.rs:710-711). -/
def permitsH2 (p : HttpVersionPref) : Bool :=
  p == .auto || p == .http2

/-- The heuristic on the lowercased error text
(hyper_engine.rs:712-715): an h2 marker together with a protocol-error
or reset marker. -/
def indicatesH2Failure (s : List Char) : Bool :=
  (containsSub s ("http2".toList) || containsSub s ("h2".toList)) &&
    (containsSub s ("protocol_error".toList) ||
     containsSub s ("protocol error".toList) ||
     containsSub s ("reset".toList))

/-- The `can_fallback` condition (hyper_engine.rs:706-715). -/
def canFallback (pref : HttpVersionPref) (disp dbg : List Char) : Bool :=
  permitsH2 pref && indicatesH2Failure (combinedErrText disp dbg)

/-- What the network delivers for one `client.request` call raced
against its deadline: a response, a transport error carrying its
display and debug text, or deadline expiry. -/
inductive AttemptOutcome
  | ok
  | transportErr (disp dbg : List Char)
  | deadline
deriving DecidableEq, Repr

/-- Observable outcome of one send (primary call plus optional
fallback): how many network calls were made, the protocol preference
and deadline given to the fallback connector when one was built, and
the final result. -/
structure SendOutcome where
  attempts : Nat
  fallbackPref : Option HttpVersionPref
  fallbackTimeoutSecs : Option Nat
  result : Except ErrorKind Unit
deriving Repr

/-- One send attempt with its optional HTTP/2 to HTTP/1.1 fallback: the
match on `timeout(Duration::from_secs(timeout_secs), call)` at
hyper_engine.rs:696-933.  A primary success returns the response; a
primary deadline expiry returns a Timeout error; a primary transport
error either triggers exactly one fallback call (built with
`http_version = Some(Http1)` and a fresh `timeout_secs` deadline,
hyper_engine.rs:729-783) when `can_fallback` holds, or returns an
HttpError; the fallback outcome is terminal either way. -/
def sendWithFallback (pref : Option HttpVersionPref) (timeoutSecs : Nat)
    (primary fallback : AttemptOutcome) : SendOutcome :=
  match primary with
  | .ok => ⟨1, none, none, .ok ()⟩
  | .deadline => ⟨1, none, none, .error .Timeout⟩
  | .transportErr disp dbg =>
      let versionPref := pref.getD .auto
      if canFallback versionPref disp dbg then
        match fallback with
        | .ok => ⟨2, some .http1, some timeoutSecs, .ok ()⟩
        | .transportErr _ _ => ⟨2, some .http1, some timeoutSecs, .error .HttpError⟩
        | .deadline => ⟨2, some .http1, some timeoutSecs, .error .Timeout⟩
      else ⟨1, none, none, .error .HttpError⟩

/-- Claim C5: after a transport-level failure of the primary call, a
fallback call is made exactly when the preference permits HTTP/2 and
the lowercased error text indicates an HTTP/2 protocol error or reset;
the fallback connector is restricted to HTTP/1.1 and gets a fresh full
deadline; a fallback transport failure or deadline expiry is terminal,
and no more than two network calls ever occur. -/
theorem http2_fallback_policy (pref : Option HttpVersionPref) (ts : Nat)
    (disp dbg : List Char) (fb : AttemptOutcome) :
    ((sendWithFallback pref ts (.transportErr disp dbg) fb).attempts = 2 ↔
      (permitsH2 (pref.getD .auto) &&
        indicatesH2Failure (combinedErrText disp dbg)) = true) ∧
    (canFallback (pref.getD .auto) disp dbg = true →
      (sendWithFallback pref ts (.transportErr disp dbg) fb).fallbackPref =
        some .http1 ∧
      (sendWithFallback pref ts (.transportErr disp dbg) fb).fallbackTimeoutSecs =
        some ts ∧
      (∀ d1 d2, fb = .transportErr d1 d2 →
        (sendWithFallback pref ts (.transportErr disp dbg) fb).result =
          .error .HttpError) ∧
      (fb = .deadline →
        (sendWithFallback pref ts (.transportErr disp dbg) fb).result =
          .error .Timeout)) ∧
    (canFallback (pref.getD .auto) disp dbg = false →
      (sendWithFallback pref ts (.transportErr disp dbg) fb).attempts = 1 ∧
      (sendWithFallback pref ts (.transportErr disp dbg) fb).result =
        .error .HttpError) ∧
    (sendWithFallback pref ts (.transportErr disp dbg) fb).attempts ≤ 2 := by
  refine ⟨?_, ?_, ?_, ?_⟩
  · simp only [sendWithFallback, canFallback]
    split
    · next h => cases fb <;> simp_all
    · next h => simp_all
  · intro hcf
    simp only [sendWithFallback, hcf, if_pos]
    cases fb <;> simp_all
  · intro hcf
    simp only [sendWithFallback, hcf]
    simp
  · simp only [sendWithFallback]
    split
    · cases fb <;> simp
    · simp

/-- Witness for C5 at concrete inputs: an auto-preference request whose
error text mentions an HTTP/2 protocol error falls back once with an
HTTP/1.1 connector and fresh deadline, and a second failure is
terminal; an http1-preference request never falls back. -/
theorem http2_fallback_policy_witness :
    (sendWithFallback (some .auto) 30
      (.transportErr ("http2 error".toList) ("PROTOCOL_ERROR".toList))
      (.transportErr ("x".toList) ("y".toList))).attempts = 2 ∧
    (sendWithFallback (some .auto) 30
      (.transportErr ("http2 error".toList) ("PROTOCOL_ERROR".toList))
      (.transportErr ("x".toList) ("y".toList))).fallbackPref = some .http1 ∧
    (sendWithFallback (some .auto) 30
      (.transportErr ("http2 error".toList) ("PROTOCOL_ERROR".toList))
      (.transportErr ("x".toList) ("y".toList))).fallbackTimeoutSecs = some 30 ∧
    (sendWithFallback (some .auto) 30
      (.transportErr ("http2 error".toList) ("PROTOCOL_ERROR".toList))
      (.transportErr ("x".toList) ("y".toList))).result = .error .HttpError ∧
    (sendWithFallback (some .http1) 30
      (.transportErr ("http2 error".toList) ("PROTOCOL_ERROR".toList))
      .deadline).attempts = 1 ∧
    (sendWithFallback (some .http1) 30
      (.transportErr ("http2 error".toList) ("PROTOCOL_ERROR".toList))
      .deadline).result = .error .HttpError := by
  obtain ⟨ha, hb, -, -⟩ := http2_fallback_policy (some .auto) 30
    ("http2 error".toList) ("PROTOCOL_ERROR".toList)
    (.transportErr ("x".toList) ("y".toList))
  obtain ⟨hp, ht, he, -⟩ := hb (by decide)
  obtain ⟨-, -, hc, -⟩ := http2_fallback_policy (some .http1) 30
    ("http2 error".toList) ("PROTOCOL_ERROR".toList) .deadline
  obtain ⟨h1, h2⟩ := hc (by decide)
  exact ⟨ha.mpr (by decide), hp, ht, he _ _ rfl, h1, h2⟩

/-- Claim C9: the final result is a Timeout-class error exactly when a
deadline expired on the attempt that produced the result (primary, or
fallback after an eligible primary failure), and an HttpError-class
error exactly when a transport failure terminated the send; the two
kinds are distinct. -/
theorem timeout_distinct_from_transport (pref : Option HttpVersionPref)
    (ts : Nat) (primary fb : AttemptOutcome) :
    ((sendWithFallback pref ts primary fb).result = .error .Timeout ↔
      (primary = .deadline ∨
        ∃ disp dbg, primary = .transportErr disp dbg ∧
          canFallback (pref.getD .auto) disp dbg = true ∧ fb = .deadline)) ∧
    ((sendWithFallback pref ts primary fb).result = .error .HttpError ↔
      (∃ disp dbg, primary = .transportErr disp dbg ∧
        (canFallback (pref.getD .auto) disp dbg = false ∨
          (canFallback (pref.getD .auto) disp dbg = true ∧
            ∃ d1 d2, fb = .transportErr d1 d2)))) ∧
    (ErrorKind.Timeout ≠ ErrorKind.HttpError) := by
  refine ⟨?_, ?_, by decide⟩
  · cases primary with
    | ok =>
        constructor
        · intro hres
          exact Except.noConfusion hres
        · rintro (hdl | ⟨a, b, habs, -, -⟩)
          · exact AttemptOutcome.noConfusion hdl
          · exact AttemptOutcome.noConfusion habs
    | deadline => exact ⟨fun _ => Or.inl rfl, fun _ => rfl⟩
    | transportErr disp dbg =>
        simp only [sendWithFallback]
        split
        · next h =>
            cases fb with
            | ok =>
                constructor
                · intro hres
                  exact Except.noConfusion hres
                · rintro (hdl | ⟨a, b, -, -, habs⟩)
                  · exact AttemptOutcome.noConfusion hdl
                  · exact AttemptOutcome.noConfusion habs
            | transportErr d1 d2 =>
                constructor
                · intro hres
                  injection hres with h2
                  exact ErrorKind.noConfusion h2
                · rintro (hdl | ⟨a, b, -, -, habs⟩)
                  · exact AttemptOutcome.noConfusion hdl
                  · exact AttemptOutcome.noConfusion habs
            | deadline =>
                exact ⟨fun _ => Or.inr ⟨disp, dbg, rfl, h, rfl⟩, fun _ => rfl⟩
        · next h =>
            rw [Bool.not_eq_true] at h
            constructor
            · intro hres
              injection hres with h2
              exact ErrorKind.noConfusion h2
            · rintro (hdl | ⟨a, b, heq, hcf, -⟩)
              · exact AttemptOutcome.noConfusion hdl
              · injection heq with h1 h2
                subst h1
                subst h2
                rw [h] at hcf
                exact Bool.noConfusion hcf
  · cases primary with
    | ok =>
        constructor
        · intro hres
          exact Except.noConfusion hres
        · rintro ⟨a, b, habs, -⟩
          exact AttemptOutcome.noConfusion habs
    | deadline =>
        constructor
        · intro hres
          injection hres with h2
          exact ErrorKind.noConfusion h2
        · rintro ⟨a, b, habs, -⟩
          exact AttemptOutcome.noConfusion habs
    | transportErr disp dbg =>
        simp only [sendWithFallback]
        split
        · next h =>
            cases fb with
            | ok =>
                constructor
                · intro hres
                  exact Except.noConfusion hres
                · rintro ⟨a, b, heq, (hcf | ⟨-, d1, d2, habs⟩)⟩
                  · injection heq with h1 h2
                    subst h1
                    subst h2
                    rw [hcf] at h
                    exact Bool.noConfusion h
                  · exact AttemptOutcome.noConfusion habs
            | transportErr d1 d2 =>
                exact ⟨fun _ => ⟨disp, dbg, rfl, Or.inr ⟨h, d1, d2, rfl⟩⟩,
                  fun _ => rfl⟩
            | deadline =>
                constructor
                · intro hres
                  injection hres with h2
                  exact ErrorKind.noConfusion h2
                · rintro ⟨a, b, heq, (hcf | ⟨-, d1, d2, habs⟩)⟩
                  · injection heq with h1 h2
                    subst h1
                    subst h2
                    rw [hcf] at h
                    exact Bool.noConfusion h
                  · exact AttemptOutcome.noConfusion habs
        · next h =>
            rw [Bool.not_eq_true] at h
            exact ⟨fun _ => ⟨disp, dbg, rfl, Or.inl h⟩, fun _ => rfl⟩

/-- Witness for C9 at concrete inputs. -/
theorem timeout_distinct_from_transport_witness :
    (sendWithFallback none 30 .deadline .ok).result = .error .Timeout ∧
    (sendWithFallback none 30
      (.transportErr ("connection refused".toList) ("io".toList))
      .ok).result = .error .HttpError ∧
    (ErrorKind.Timeout ≠ ErrorKind.HttpError) := by
  obtain ⟨h1, -, -⟩ := timeout_distinct_from_transport none 30 .deadline .ok
  obtain ⟨-, h2, h3⟩ := timeout_distinct_from_transport none 30
    (.transportErr ("connection refused".toList) ("io".toList)) .ok
  refine ⟨h1.mpr (Or.inl rfl), ?_, h3⟩
  exact h2.mpr ⟨_, _, rfl, Or.inl (by decide)⟩

/-! ## Cancellation registry (manager.rs) and the execute race (lib.rs) -/

/-- Process-wide registry state: the id-to-token map (`TOKENS` in
manager.rs), the set of token identities that have been signalled, and
a counter supplying fresh token identities (each
`CancellationToken::new()` is a distinct object). -/
structure RegistryWorld where
  reg : List (String × Nat)
  cancelled : List Nat
  nextTok : Nat
deriving DecidableEq, Repr

/-- First-match association lookup, the `map.get(id)` of manager.rs. -/
def lookupTok (reg : List (String × Nat)) (id : String) : Option Nat :=
  match reg with
  | [] => none
  | (k, t) :: rest => if k = id then some t else lookupTok rest id

/-- `register(id)` (manager.rs:11-16): create a fresh token and insert
it under `id`, replacing any prior entry for the same id.  Returns the
new world and the fresh token. -/
def registerTok (w : RegistryWorld) (id : String) : RegistryWorld × Nat :=
  (⟨(id, w.nextTok) :: w.reg.filter (fun p => !(p.1 == id)),
      w.cancelled, w.nextTok + 1⟩,
    w.nextTok)

/-- `cancel(id)` (manager.rs:18-26): signal the currently-registered
token when present and return true; otherwise return false and change
nothing. -/
def cancelTok (w : RegistryWorld) (id : String) : RegistryWorld × Bool :=
  match lookupTok w.reg id with
  | some t => (⟨w.reg, t :: w.cancelled, w.nextTok⟩, true)
  | none => (w, false)

/-- `remove(id)` (manager.rs:28-31): delete the mapping without
signalling. -/
def removeTok (w : RegistryWorld) (id : String) : RegistryWorld :=
  ⟨w.reg.filter (fun p => !(p.1 == id)), w.cancelled, w.nextTok⟩

/-- A token has been signalled in a world. -/
def IsCancelled (w : RegistryWorld) (t : Nat) : Prop := t ∈ w.cancelled

/-- The `tokio::select!` race of `send_http_request` (lib.rs:129-134):
when the cancellation signal is observed before the engine completes,
the result is a UserCancelled error; otherwise the engine result. -/
def selectOutcome (cancelledFirst : Bool) (engineRes : Except ErrorKind Unit) :
    Except ErrorKind Unit :=
  if cancelledFirst then .error .UserCancelled else engineRes

/-- Registry effect and result of `send_http_request` (lib.rs:117-138):
register a fresh token under the request id, race cancellation against
the engine, remove the mapping unconditionally, and return the raced
result. -/
def sendHttpRequest (w : RegistryWorld) (id : String) (cancelledFirst : Bool)
    (engineRes : Except ErrorKind Unit) :
    RegistryWorld × Except ErrorKind Unit :=
  let rt := registerTok w id
  let result := selectOutcome cancelledFirst engineRes
  (removeTok rt.1 id, result)

theorem lookupTok_filter_self (reg : List (String × Nat)) (id : String) :
    lookupTok (reg.filter fun p => !(p.1 == id)) id = none := by
  induction reg with
  | nil => rfl
  | cons p rest ih =>
      by_cases h : p.1 = id
      · simpa [List.filter_cons, h] using ih
      · simpa [List.filter_cons, h, lookupTok] using ih

/-- Claim C7: a cancellation handle is registered under the request id
at execution start, and after `send_http_request` returns by any path
(any raced result, any engine outcome) the id is absent from the
registry. -/
theorem execute_registry_lifecycle (w : RegistryWorld) (id : String)
    (cancelledFirst : Bool) (engineRes : Except ErrorKind Unit) :
    lookupTok (registerTok w id).1.reg id = some (registerTok w id).2 ∧
    lookupTok (sendHttpRequest w id cancelledFirst engineRes).1.reg id = none := by
  constructor
  · simp [registerTok, lookupTok]
  · simp only [sendHttpRequest, removeTok]
    exact lookupTok_filter_self _ id

/-- Claim C6: cancel returns true and signals exactly the
currently-registered handle when one exists; cancel on an unknown id
returns false and changes nothing; a handle replaced by re-registration
or removed is never signalled by a later cancel on that id; and a
cancel signal observed before network completion makes the execution
return a UserCancelled error. -/
theorem cancel_contract (w : RegistryWorld) (id : String)
    (engineRes : Except ErrorKind Unit) :
    ((cancelTok w id).2 = true ↔ ∃ t, lookupTok w.reg id = some t) ∧
    (∀ t, lookupTok w.reg id = some t →
      IsCancelled (cancelTok w id).1 t ∧
      (cancelTok w id).1.reg = w.reg ∧
      (∀ u, u ≠ t → (IsCancelled (cancelTok w id).1 u ↔ IsCancelled w u))) ∧
    (lookupTok w.reg id = none → cancelTok w id = (w, false)) ∧
    (∀ u, ¬ IsCancelled w u → IsCancelled (cancelTok w id).1 u →
      lookupTok w.reg id = some u) ∧
    ((registerTok (registerTok w id).1 id).2 ≠ (registerTok w id).2 ∧
      lookupTok (registerTok (registerTok w id).1 id).1.reg id =
        some (registerTok (registerTok w id).1 id).2) ∧
    (lookupTok (removeTok w id).reg id = none ∧
      cancelTok (removeTok w id) id = (removeTok w id, false)) ∧
    (selectOutcome true engineRes = .error .UserCancelled) := by
  refine ⟨?_, ?_, ?_, ?_, ⟨?_, ?_⟩, ⟨?_, ?_⟩, rfl⟩
  · constructor
    · intro h
      cases hl : lookupTok w.reg id with
      | none => rw [cancelTok, hl] at h; cases h
      | some t => exact ⟨t, rfl⟩
    · rintro ⟨t, ht⟩
      rw [cancelTok, ht]
  · intro t ht
    rw [cancelTok, ht]
    refine ⟨List.mem_cons_self _ _, rfl, ?_⟩
    intro u hu
    simp only [IsCancelled, List.mem_cons]
    constructor
    · rintro (h | h)
      · exact absurd h hu
      · exact h
    · exact Or.inr
  · intro h
    rw [cancelTok, h]
  · intro u hnc hc
    cases hl : lookupTok w.reg id with
    | none =>
        rw [cancelTok, hl] at hc
        exact absurd hc hnc
    | some t =>
        rw [cancelTok, hl] at hc
        simp only [IsCancelled, List.mem_cons] at hc
        rcases hc with h | h
        · rw [h]
        · exact absurd h hnc
  · simp [registerTok]
  · simp [registerTok, lookupTok]
  · exact lookupTok_filter_self w.reg id
  · rw [cancelTok]
    rw [show lookupTok (removeTok w id).reg id = none from
      lookupTok_filter_self w.reg id]

/-- Witness for C6 at a concrete world. -/
theorem cancel_contract_witness :
    (cancelTok ⟨[("r1", 0)], [], 1⟩ "r1").2 = true ∧
    IsCancelled (cancelTok ⟨[("r1", 0)], [], 1⟩ "r1").1 0 ∧
    cancelTok ⟨[("r1", 0)], [], 1⟩ "r2" = (⟨[("r1", 0)], [], 1⟩, false) ∧
    selectOutcome true (.ok ()) = .error .UserCancelled := by
  obtain ⟨h1, h2, h3, -, -, -, h7⟩ :=
    cancel_contract ⟨[("r1", 0)], [], 1⟩ "r1" (.ok ())
  obtain ⟨-, -, h3b, -, -, -, -⟩ :=
    cancel_contract ⟨[("r1", 0)], [], 1⟩ "r2" (.ok ())
  obtain ⟨hc, -, -⟩ := h2 0 (by decide)
  exact ⟨h1.mpr ⟨0, by decide⟩, hc, h3b (by decide), h7⟩

/-! ## Override resolver (hyper_engine/connector.rs, OverrideResolver::call) -/

/-- A resolved socket address. -/
structure SockAddr where
  ip : String
  port : Nat
deriving DecidableEq, Repr

/-- The system resolver failure type: `std::io::Error`, modelled by its
message.  The resolver error channel is this I/O error type by
construction (`type Error = io::Error`, connector.rs:215). -/
structure ResolverIoError where
  msg : String
deriving DecidableEq, Repr

/-- Rust `str::eq_ignore_ascii_case`. -/
def eqIgnoreAsciiCase (a b : List Char) : Bool :=
  lowerStr a == lowerStr b

/-- One resolver lookup (`OverrideResolver::call`, connector.rs:223-336):
when an override socket is configured and the looked-up name
case-insensitively equals the target host, return exactly the override
socket; otherwise delegate to the system resolver (`GaiResolver`),
whose addresses or I/O error are returned as is. -/
def overrideResolverCall (overrideSocket : Option SockAddr)
    (targetHost lookup : List Char)
    (systemResult : Except ResolverIoError (List SockAddr)) :
    Except ResolverIoError (List SockAddr) :=
  match overrideSocket with
  | some s =>
      if eqIgnoreAsciiCase lookup targetHost then .ok [s] else systemResult
  | none => systemResult

/-- Claim C8: a configured override whose target matches the looked-up
name case-insensitively resolves to exactly the override socket; any
other lookup delegates to the system resolver, and a system-resolver
failure propagates unchanged as an I/O-class error. -/
theorem resolver_override_policy (ovr : Option SockAddr)
    (target lookup : List Char)
    (sys : Except ResolverIoError (List SockAddr)) :
    (∀ s, ovr = some s → eqIgnoreAsciiCase lookup target = true →
      overrideResolverCall ovr target lookup sys = .ok [s]) ∧
    (eqIgnoreAsciiCase lookup target = false →
      overrideResolverCall ovr target lookup sys = sys) ∧
    (ovr = none → overrideResolverCall ovr target lookup sys = sys) ∧
    (∀ e, overrideResolverCall ovr target lookup sys = .error e →
      sys = .error e) := by
  refine ⟨?_, ?_, ?_, ?_⟩
  · intro s hs hm
    rw [hs]
    simp [overrideResolverCall, hm]
  · intro hm
    cases ovr with
    | none => rfl
    | some s => simp [overrideResolverCall, hm]
  · intro h
    rw [h]
    rfl
  · intro e he
    cases ovr with
    | none => exact he
    | some s =>
        simp only [overrideResolverCall] at he
        split at he
        · exact Except.noConfusion he
        · exact he

/-- Witness for C8 at concrete inputs. -/
theorem resolver_override_policy_witness :
    overrideResolverCall (some ⟨"127.0.0.1", 8080⟩)
      ("API.example.com".toList) ("api.EXAMPLE.com".toList)
      (.ok []) = .ok [⟨"127.0.0.1", 8080⟩] ∧
    overrideResolverCall (some ⟨"127.0.0.1", 8080⟩)
      ("api.example.com".toList) ("other.example.com".toList)
      (.error ⟨"dns down"⟩) = .error ⟨"dns down"⟩ := by
  obtain ⟨h1, -, -, -⟩ := resolver_override_policy (some ⟨"127.0.0.1", 8080⟩)
    ("API.example.com".toList) ("api.EXAMPLE.com".toList) (.ok [])
  obtain ⟨-, h2, -, -⟩ := resolver_override_policy (some ⟨"127.0.0.1", 8080⟩)
    ("api.example.com".toList) ("other.example.com".toList)
    (.error ⟨"dns down"⟩)
  exact ⟨h1 _ rfl (by decide), h2 (by decide)⟩

/-! ## Set-Cookie parsing (cookies.rs) -/

/-- Parsed cookie (response.rs, `struct Cookie`), character sequences
for the textual fields. -/
structure Cookie where
  name : List Char
  value : List Char
  domain : Option (List Char)
  path : Option (List Char)
  expires : Option (List Char)
  maxAge : Option Int
  secure : Option Bool
  httpOnly : Option Bool
  sameSite : Option (List Char)
deriving DecidableEq, Repr

/-- Whitespace characters of an HTTP header line; Rust `str::trim`
trims Unicode whitespace, of which these are the forms that occur in
header values. -/
def isWsChar (c : Char) : Bool :=
  c = ' ' || c = '\t' || c = '\n' || c = '\r'

/-- Rust `str::trim` on header text. -/
def trimChars (l : List Char) : List Char :=
  ((l.dropWhile isWsChar).reverse.dropWhile isWsChar).reverse

/-- Split at the first occurrence of a character, Rust `str::find`
followed by slicing: `some (before, after)` when the character occurs. -/
def splitFirst (sep : Char) (l : List Char) : Option (List Char × List Char) :=
  match l.span (fun c => !(c == sep)) with
  | (_, []) => none
  | (before, _ :: after) => some (before, after)

/-- Digit run to a number: `some` when non-empty and all ASCII digits. -/
def parseDigits (l : List Char) : Option Nat :=
  match l with
  | [] => none
  | _ =>
      if l.all (fun c => c.isDigit) then
        some (l.foldl (fun acc c => acc * 10 + (c.toNat - 48)) 0)
      else none

/-- Rust `str::parse::<i64>()`: optional sign, at least one ASCII digit,
value within the signed 64-bit range. -/
def parseI64 (l : List Char) : Option Int :=
  let signed : Bool × List Char :=
    match l with
    | '-' :: rest => (true, rest)
    | '+' :: rest => (false, rest)
    | _ => (false, l)
  match parseDigits signed.2 with
  | none => none
  | some n =>
      let v : Int := if signed.1 then -(n : Int) else (n : Int)
      if -(2 ^ 63) ≤ v ∧ v ≤ 2 ^ 63 - 1 then some v else none

/-- SameSite normalization (cookies.rs:76-81): Strict, Lax and None are
matched case-insensitively; anything else passes through lower-cased. -/
def normalizeSameSite (val : List Char) : List Char :=
  let lv := lowerStr val
  if lv = ("lax".toList) then "Lax".toList
  else if lv = ("strict".toList) then "Strict".toList
  else if lv = ("none".toList) then "None".toList
  else lv

/-- Dispatch on the already-lowercased attribute key, the
`match key.to_ascii_lowercase().as_str()` of cookies.rs:49-86.
`parseExpires` stands for `parse_cookie_expires` (cookies.rs:93-114),
whose chrono date-format parsing lies outside this embedding; it
returns the RFC 3339 rendering when the date parses. -/
def applyAttrLower (parseExpires : List Char → Option (List Char))
    (c : Cookie) (lk val : List Char) : Cookie :=
  if lk = ("domain".toList) then
    if val.isEmpty then c else { c with domain := some val }
  else if lk = ("path".toList) then
    if val.isEmpty then c else { c with path := some val }
  else if lk = ("expires".toList) then
    if val.isEmpty then c
    else
      match parseExpires val with
      | some dt => { c with expires := some dt }
      | none => c
  else if lk = ("max-age".toList) then
    if val.isEmpty then c
    else
      match parseI64 val with
      | some n => { c with maxAge := some n }
      | none => c
  else if lk = ("samesite".toList) then
    if val.isEmpty then c else { c with sameSite := some (normalizeSameSite val) }
  else c

/-- Attribute application for a trimmed key/value pair
(cookies.rs:43-87): keys are matched after ASCII lowercasing. -/
def applyAttr (parseExpires : List Char → Option (List Char))
    (c : Cookie) (key val : List Char) : Cookie :=
  applyAttrLower parseExpires c (lowerStr key) val

/-- One attribute segment of the parser loop (cookies.rs:30-88): skip
empty segments, flag segments `Secure` and `HttpOnly` matched
case-insensitively, otherwise split at the first equals sign, skip an
empty key, and dispatch on the key. -/
def applySegment (parseExpires : List Char → Option (List Char))
    (c : Cookie) (segment : List Char) : Cookie :=
  let seg := trimChars segment
  if seg.isEmpty then c
  else if eqIgnoreAsciiCase seg ("secure".toList) then { c with secure := some true }
  else if eqIgnoreAsciiCase seg ("httponly".toList) then { c with httpOnly := some true }
  else
    match splitFirst '=' seg with
    | none => c
    | some (k, v) =>
        let key := trimChars k
        let val := trimChars v
        if key.isEmpty then c
        else applyAttr parseExpires c key val

/-- `parse_set_cookie_header` (cookies.rs:7-90): split the header on
semicolons, read `name=value` from the first segment (rejecting an
empty name), then fold the attribute segments over the fresh cookie. -/
def parseSetCookieHeader (parseExpires : List Char → Option (List Char))
    (header : List Char) : Option Cookie :=
  match header.splitOn ';' with
  | [] => none
  | first :: segments =>
      let firstT := trimChars first
      let nv :=
        match splitFirst '=' firstT with
        | none => (firstT, ([] : List Char))
        | some (n, v) => (n, v)
      let name := trimChars nv.1
      let value := trimChars nv.2
      if name.isEmpty then none
      else
        some (segments.foldl (applySegment parseExpires)
          ⟨name, value, none, none, none, none, none, none, none⟩)

/-- Claim C4: the example header parses to the expected cookie;
`"=value"` parses to no cookie; attribute keys are matched
case-insensitively; unknown attribute keys leave the cookie unchanged;
and the SameSite value is normalized to Strict/Lax/None
case-insensitively or passed through lower-cased when unrecognized.
All parts hold for every date parser `pe` standing in for
`parse_cookie_expires`. -/
theorem parse_set_cookie_contract (pe : List Char → Option (List Char))
    (c : Cookie) (key1 key2 key val : List Char) :
    (parseSetCookieHeader pe
        ("a=b; Domain=x.com; Path=/; Max-Age=10; Secure; HttpOnly; SameSite=Lax".toList) =
      some ⟨"a".toList, "b".toList, some ("x.com".toList), some ("/".toList),
        none, some 10, some true, some true, some ("Lax".toList)⟩) ∧
    (parseSetCookieHeader pe ("=value".toList) = none) ∧
    (lowerStr key1 = lowerStr key2 →
      applyAttr pe c key1 val = applyAttr pe c key2 val) ∧
    (lowerStr key ≠ ("domain".toList) → lowerStr key ≠ ("path".toList) →
      lowerStr key ≠ ("expires".toList) → lowerStr key ≠ ("max-age".toList) →
      lowerStr key ≠ ("samesite".toList) → applyAttr pe c key val = c) ∧
    (val.isEmpty = false →
      applyAttr pe c ("SameSite".toList) val =
        { c with sameSite := some (normalizeSameSite val) }) ∧
    (lowerStr val = ("strict".toList) → normalizeSameSite val = "Strict".toList) ∧
    (lowerStr val = ("lax".toList) → normalizeSameSite val = "Lax".toList) ∧
    (lowerStr val = ("none".toList) → normalizeSameSite val = "None".toList) ∧
    (lowerStr val ≠ ("strict".toList) → lowerStr val ≠ ("lax".toList) →
      lowerStr val ≠ ("none".toList) → normalizeSameSite val = lowerStr val) := by
  refine ⟨rfl, rfl, ?_, ?_, ?_, ?_, ?_, ?_, ?_⟩
  · intro h
    simp only [applyAttr, h]
  · intro h1 h2 h3 h4 h5
    simp only [applyAttr, applyAttrLower]
    rw [if_neg h1, if_neg h2, if_neg h3, if_neg h4, if_neg h5]
  · intro hval
    have hs : applyAttr pe c ("SameSite".toList) val =
        if val.isEmpty then c
        else { c with sameSite := some (normalizeSameSite val) } := rfl
    rw [hs, hval]
    simp
  · intro h
    simp [normalizeSameSite, h]
  · intro h
    simp [normalizeSameSite, h]
  · intro h
    simp [normalizeSameSite, h]
  · intro h1 h2 h3
    simp only [normalizeSameSite]
    rw [if_neg h2, if_neg h1, if_neg h3]

/-- Witness for C4 at concrete inputs: the example header with a date
parser that never succeeds, a case-changed Domain key, an unknown Foo
key, and a SameSite value written lAx. -/
theorem parse_set_cookie_contract_witness :
    (parseSetCookieHeader (fun _ => none)
        ("a=b; Domain=x.com; Path=/; Max-Age=10; Secure; HttpOnly; SameSite=Lax".toList) =
      some ⟨"a".toList, "b".toList, some ("x.com".toList), some ("/".toList),
        none, some 10, some true, some true, some ("Lax".toList)⟩) ∧
    (parseSetCookieHeader (fun _ => none) ("=value".toList) = none) ∧
    (applyAttr (fun _ => none)
        ⟨"a".toList, "b".toList, none, none, none, none, none, none, none⟩
        ("DOMAIN".toList) ("x".toList) =
      applyAttr (fun _ => none)
        ⟨"a".toList, "b".toList, none, none, none, none, none, none, none⟩
        ("Domain".toList) ("x".toList)) ∧
    (applyAttr (fun _ => none)
        ⟨"a".toList, "b".toList, none, none, none, none, none, none, none⟩
        ("Foo".toList) ("Bar".toList) =
      ⟨"a".toList, "b".toList, none, none, none, none, none, none, none⟩) ∧
    (applyAttr (fun _ => none)
        ⟨"a".toList, "b".toList, none, none, none, none, none, none, none⟩
        ("SameSite".toList) ("lAx".toList) =
      ⟨"a".toList, "b".toList, none, none, none, none, none, none,
        some ("Lax".toList)⟩) ∧
    (normalizeSameSite ("Experimental".toList) = "experimental".toList) := by
  obtain ⟨he, hv, hci, -, -, -, -, -, -⟩ := parse_set_cookie_contract
    (fun _ => none)
    ⟨"a".toList, "b".toList, none, none, none, none, none, none, none⟩
    ("DOMAIN".toList) ("Domain".toList) ("k".toList) ("x".toList)
  obtain ⟨-, -, -, hunk, -, -, -, -, -⟩ := parse_set_cookie_contract
    (fun _ => none)
    ⟨"a".toList, "b".toList, none, none, none, none, none, none, none⟩
    ("k1".toList) ("k2".toList) ("Foo".toList) ("v".toList)
  obtain ⟨-, -, -, -, hss, -, hlax, -, -⟩ := parse_set_cookie_contract
    (fun _ => none)
    ⟨"a".toList, "b".toList, none, none, none, none, none, none, none⟩
    ("k1".toList) ("k2".toList) ("k".toList) ("lAx".toList)
  obtain ⟨-, -, -, -, -, -, -, -, hpass⟩ := parse_set_cookie_contract
    (fun _ => none)
    ⟨"a".toList, "b".toList, none, none, none, none, none, none, none⟩
    ("k1".toList) ("k2".toList) ("k".toList) ("Experimental".toList)
  refine ⟨he, hv, hci (by decide), hunk (by decide) (by decide) (by decide)
    (by decide) (by decide), ?_, hpass (by decide) (by decide) (by decide)⟩
  rw [hss (by decide), hlax (by decide)]

end Knurl
